import Mathlib

/-!
# wallet-hd: adaptor dispatcher and polygon connection layer

A shallow embedding of `walletdispatcher/dispatcher.go` and
`wallet/polygon/polygonclient.go`.

Conventions of the embedding

* A Go call either returns, raises a run-time fault (panic) or ends the process;
  `Go.Outcome` keeps the three apart.
* A Go pointer or interface value that may be nil is an `Option`.
* Calls that leave the function under study (adaptor methods, network
  primitives) are recorded in a trace, in program order, at the very place
  where the source performs the call.
* Logging (`log.Info`, `log.Error`, `log.Debug`) has no effect on any value
  studied here and is left out; `log.Crit` is kept, because it ends the process.
-/

set_option autoImplicit false

namespace Go

/-- Value carried by a run-time fault (a Go panic with a non-nil value):
`description` is the text that the `%v` verb prints for it. -/
structure Fault where
  description : String
deriving DecidableEq, Repr

/-- How a Go call ends: it returns a value, it panics with a fault that unwinds
the stack, or the process is terminated with an exit code (`os.Exit`). -/
inductive Outcome (α : Type) where
  | returned (a : α)
  | panicked (e : Fault)
  | exited (code : Nat)
deriving DecidableEq, Repr

/-- The fault the Go runtime raises when a method is called through a nil
interface or a field is read through a nil pointer. -/
def nilDereference : Fault :=
  { description := "runtime error: invalid memory address or nil pointer dereference" }

end Go

namespace config

/-- Modelled from the spec: the two fixed message constants of package config
(UnsupportedOperation and UnsupportedChain); their text is declared in another
package and is kept as a parameter. -/
structure Consts where
  UnsupportedOperation : String
  UnsupportedChain : String
deriving DecidableEq, Repr

/-- One configured RPC endpoint of a full node. -/
structure RPC where
  RPCURL : String
deriving DecidableEq, Repr

/-- The polygon section of the full-node configuration: the ordered endpoint
list and the confirmation count (a uint64). -/
structure Node where
  RPCs : List RPC
  Confirmations : Nat
deriving DecidableEq, Repr

structure Fullnode where
  Polygon : Node
deriving DecidableEq, Repr

/-- Modelled from the spec: the fields of config.Config that the two source
files read (the declaration lives in another package): the enabled
chain list, the network-class selector and the full-node section. -/
structure Config where
  Chains : List String
  NetWork : String
  Fullnode : Fullnode
deriving DecidableEq, Repr

/-- Modelled from the spec: the network-class selector config.NetWorkType with
its three named values; any further value of the underlying type is other. -/
inductive NetWorkType where
  | MainNet
  | TestNet
  | RegTest
  | other (n : Nat)
deriving DecidableEq, Repr

end config

namespace walletdispatcher

open Go config

/-- Modelled from the spec: the status enumeration of package `rpc/common`
(declared in another package), "a status field ∈ OK, ERROR". -/
inductive ReturnCode where
  | SUCCESS
  | ERROR
deriving DecidableEq, Repr

/-- Value of one field of a protobuf message: a string, a boolean, a number,
the nil pointer or slice, or a non-nil reference to nested content. -/
inductive Value where
  | str (s : String)
  | bool (b : Bool)
  | num (n : Int)
  | nil
  | ref (content : String)
deriving DecidableEq, Repr

/-- Zero value test of Go: the empty string, false, 0 and nil. -/
def Value.isZero : Value → Bool
  | .str s => s == ""
  | .bool b => b == false
  | .num n => n == 0
  | .nil => true
  | .ref _ => false

/-- Any `wallet2.*Request` message: the chain identifier every request carries
and the operation-specific parameters by field name. -/
structure Request where
  Chain : String
  params : List (String × Value)
deriving DecidableEq, Repr

/-- The generated getter for `Chain` behind the `CommonRequest` interface. -/
def Request.GetChain (r : Request) : String := r.Chain

/-- Any `wallet2.*Response` message: `Code`, `Msg` and the payload fields that a
composite literal sets explicitly, by field name; a field that the literal
leaves out holds the zero value of its type. -/
structure Response where
  Code : ReturnCode
  Msg : String
  payload : List (String × Value)
deriving DecidableEq, Repr

/-- The gRPC status codes used here (`google.golang.org/grpc/codes`). -/
inductive codes where
  | OK
  | Unknown
  | Internal
deriving DecidableEq, Repr

/-- A non-nil Go `error`: a gRPC status error or any other error. -/
inductive Error where
  | status (code : codes) (msg : String)
  | other (msg : String)
deriving DecidableEq, Repr

/-- The pair `(response, error)` every operation returns; nil is `none`. -/
abbrev Reply := Option Response × Option Error

/-- The 25 operation methods, shared by `wallet.WalletAdaptor` and the
dispatcher. -/
inductive Op where
  | GetSupportCoins
  | GetNonce
  | GetGasPrice
  | SendTx
  | GetBalance
  | GetTxByAddress
  | GetTxByHash
  | GetAccount
  | GetUtxo
  | GetMinRent
  | ConvertAddress
  | ValidAddress
  | GetUtxoInsFromData
  | GetAccountTxFromData
  | GetUtxoTxFromData
  | GetAccountTxFromSignedData
  | GetUtxoTxFromSignedData
  | CreateAccountSignedTx
  | CreateAccountTx
  | CreateUtxoSignedTx
  | CreateUtxoTx
  | VerifyAccountSignedTx
  | VerifyUtxoSignedTx
  | ABIBinToJSON
  | ABIJSONToBin
deriving DecidableEq, Repr

/-- Modelled from the spec: the interface `wallet.WalletAdaptor` (declared
in another package): one method per operation, each taking the request
of the operation and returning its response and an error, or not returning. -/
structure WalletAdaptor where
  method : Op → Request → Outcome Reply

/-- One call of an adaptor method: the registry key the adaptor was taken from,
the method, and the request handed over. -/
structure AdaptorCall where
  key : String
  op : Op
  request : Request
deriving DecidableEq, Repr

/-- Result of running a dispatcher method: the adaptor calls it made, in order,
and how it ended. -/
structure Run (α : Type) where
  calls : List AdaptorCall
  out : Outcome α

/-- The Go map `map[ChainType]wallet.WalletAdaptor`; an entry may hold the nil
interface. The first pair with a given key is the entry of that key. -/
abbrev Registry := List (String × Option WalletAdaptor)

/-- Map assignment `registry[c] = a`. -/
def Registry.set (r : Registry) (c : String) (a : Option WalletAdaptor) : Registry :=
  (c, a) :: r.filter (fun e => !(e.1 == c))

structure WalletDispatcher where
  registry : Registry

/-- Map read `d.registry[chain]`: the entry, or the nil interface when the key
is absent. -/
def WalletDispatcher.index (d : WalletDispatcher) (chain : String) : Option WalletAdaptor :=
  (d.registry.lookup chain).join

/-- The call `d.registry[chain].M(request)` for the method `M` named by `op`: a
method call through the nil interface panics, any other one is recorded and its
outcome is the outcome of the whole expression. -/
def WalletDispatcher.invoke (d : WalletDispatcher) (chain : String) (op : Op)
    (request : Request) : Run Reply :=
  match d.index chain with
  | none => { calls := [], out := .panicked nilDereference }
  | some a => { calls := [{ key := chain, op := op, request := request }],
                out := a.method op request }

/-- A return without any adaptor call. -/
def Run.ret {α : Type} (a : α) : Run α := { calls := [], out := .returned a }

def WalletDispatcher.preHandler (d : WalletDispatcher) (config : Consts)
    (req : Request) : Option Response :=
  let chain := req.GetChain
  match d.registry.lookup chain with
  | none => some { Code := .ERROR, Msg := config.UnsupportedOperation,
                   payload := [("Support", .bool false)] }
  | some _ => none

def WalletDispatcher.GetSupportCoins (d : WalletDispatcher) (config : Consts)
    (request : Request) : Run Reply :=
  let resp := d.preHandler config request
  if resp.isSome then
    Run.ret (some { Code := .ERROR, Msg := config.UnsupportedOperation,
                    payload := [] }, none)
  else
    d.invoke request.Chain .GetSupportCoins request

def WalletDispatcher.GetNonce (d : WalletDispatcher) (config : Consts)
    (request : Request) : Run Reply :=
  let resp := d.preHandler config request
  if resp.isSome then
    Run.ret (some { Code := .ERROR, Msg := config.UnsupportedOperation,
                    payload := [] }, none)
  else
    d.invoke request.Chain .GetNonce request

def WalletDispatcher.GetGasPrice (d : WalletDispatcher) (config : Consts)
    (request : Request) : Run Reply :=
  let resp := d.preHandler config request
  if resp.isSome then
    Run.ret (some { Code := .ERROR, Msg := config.UnsupportedOperation,
                    payload := [("Gas", .str "")] }, none)
  else
    d.invoke request.Chain .GetGasPrice request

def WalletDispatcher.SendTx (d : WalletDispatcher) (config : Consts)
    (request : Request) : Run Reply :=
  let resp := d.preHandler config request
  if resp.isSome then
    Run.ret (some { Code := .ERROR, Msg := config.UnsupportedOperation,
                    payload := [("TxHash", .str "")] }, none)
  else
    d.invoke request.Chain .SendTx request

def WalletDispatcher.GetBalance (d : WalletDispatcher) (config : Consts)
    (request : Request) : Run Reply :=
  let resp := d.preHandler config request
  if resp.isSome then
    Run.ret (some { Code := .ERROR, Msg := config.UnsupportedOperation,
                    payload := [("Balance", .str "")] }, none)
  else
    d.invoke request.Chain .GetBalance request

def WalletDispatcher.GetTxByAddress (d : WalletDispatcher) (config : Consts)
    (request : Request) : Run Reply :=
  let resp := d.preHandler config request
  if resp.isSome then
    Run.ret (some { Code := .ERROR, Msg := config.UnsupportedOperation,
                    payload := [("Tx", .nil)] }, none)
  else
    d.invoke request.Chain .GetTxByAddress request

def WalletDispatcher.GetTxByHash (d : WalletDispatcher) (config : Consts)
    (request : Request) : Run Reply :=
  let resp := d.preHandler config request
  if resp.isSome then
    Run.ret (some { Code := .ERROR, Msg := config.UnsupportedOperation,
                    payload := [("Tx", .nil)] }, none)
  else
    d.invoke request.Chain .GetTxByHash request

def WalletDispatcher.GetAccount (d : WalletDispatcher) (config : Consts)
    (request : Request) : Run Reply :=
  let resp := d.preHandler config request
  if resp.isSome then
    Run.ret (some { Code := .ERROR, Msg := config.UnsupportedOperation,
                    payload := [("AccountNumber", .str ""), ("Sequence", .str "")] }, none)
  else
    d.invoke request.Chain .GetAccount request

def WalletDispatcher.GetUtxo (d : WalletDispatcher) (config : Consts)
    (request : Request) : Run Reply :=
  let resp := d.preHandler config request
  if resp.isSome then
    Run.ret (some { Code := .ERROR, Msg := config.UnsupportedOperation,
                    payload := [] }, none)
  else
    d.invoke request.Chain .GetUtxo request

def WalletDispatcher.GetMinRent (d : WalletDispatcher) (config : Consts)
    (request : Request) : Run Reply :=
  let resp := d.preHandler config request
  if resp.isSome then
    Run.ret (some { Code := .ERROR, Msg := config.UnsupportedOperation,
                    payload := [("Value", .str "")] }, none)
  else
    d.invoke request.Chain .GetMinRent request

def WalletDispatcher.ConvertAddress (d : WalletDispatcher) (config : Consts)
    (request : Request) : Run Reply :=
  let resp := d.preHandler config request
  if resp.isSome then
    Run.ret (some { Code := .ERROR, Msg := config.UnsupportedChain,
                    payload := [] }, none)
  else
    d.invoke request.Chain .ConvertAddress request

def WalletDispatcher.ValidAddress (d : WalletDispatcher) (config : Consts)
    (request : Request) : Run Reply :=
  let resp := d.preHandler config request
  if resp.isSome then
    Run.ret (some { Code := .ERROR, Msg := config.UnsupportedChain,
                    payload := [] }, none)
  else
    d.invoke request.Chain .ValidAddress request

def WalletDispatcher.GetUtxoInsFromData (d : WalletDispatcher) (config : Consts)
    (request : Request) : Run Reply :=
  let resp := d.preHandler config request
  if resp.isSome then
    Run.ret (some { Code := .ERROR, Msg := config.UnsupportedChain,
                    payload := [] }, none)
  else
    d.invoke request.Chain .GetUtxoInsFromData request

def WalletDispatcher.GetAccountTxFromData (d : WalletDispatcher) (config : Consts)
    (request : Request) : Run Reply :=
  let resp := d.preHandler config request
  if resp.isSome then
    Run.ret (some { Code := .ERROR, Msg := config.UnsupportedChain,
                    payload := [] }, none)
  else
    d.invoke request.Chain .GetAccountTxFromData request

def WalletDispatcher.GetUtxoTxFromData (d : WalletDispatcher) (config : Consts)
    (request : Request) : Run Reply :=
  let resp := d.preHandler config request
  if resp.isSome then
    Run.ret (some { Code := .ERROR, Msg := config.UnsupportedChain,
                    payload := [] }, none)
  else
    d.invoke request.Chain .GetUtxoTxFromData request

def WalletDispatcher.GetAccountTxFromSignedData (d : WalletDispatcher) (config : Consts)
    (request : Request) : Run Reply :=
  let resp := d.preHandler config request
  if resp.isSome then
    Run.ret (some { Code := .ERROR, Msg := config.UnsupportedChain,
                    payload := [] }, none)
  else
    d.invoke request.Chain .GetAccountTxFromSignedData request

def WalletDispatcher.GetUtxoTxFromSignedData (d : WalletDispatcher) (config : Consts)
    (request : Request) : Run Reply :=
  let resp := d.preHandler config request
  if resp.isSome then
    Run.ret (some { Code := .ERROR, Msg := config.UnsupportedChain,
                    payload := [] }, none)
  else
    d.invoke request.Chain .GetUtxoTxFromSignedData request

def WalletDispatcher.CreateAccountSignedTx (d : WalletDispatcher) (config : Consts)
    (request : Request) : Run Reply :=
  let resp := d.preHandler config request
  if resp.isSome then
    Run.ret (some { Code := .ERROR, Msg := config.UnsupportedChain,
                    payload := [] }, none)
  else
    d.invoke request.Chain .CreateAccountSignedTx request

def WalletDispatcher.CreateAccountTx (d : WalletDispatcher) (config : Consts)
    (request : Request) : Run Reply :=
  let resp := d.preHandler config request
  if resp.isSome then
    Run.ret (some { Code := .ERROR, Msg := config.UnsupportedChain,
                    payload := [] }, none)
  else
    d.invoke request.Chain .CreateAccountTx request

def WalletDispatcher.CreateUtxoSignedTx (d : WalletDispatcher) (config : Consts)
    (request : Request) : Run Reply :=
  let resp := d.preHandler config request
  if resp.isSome then
    Run.ret (some { Code := .ERROR, Msg := config.UnsupportedChain,
                    payload := [] }, none)
  else
    d.invoke request.Chain .CreateUtxoSignedTx request

def WalletDispatcher.CreateUtxoTx (d : WalletDispatcher) (config : Consts)
    (request : Request) : Run Reply :=
  let resp := d.preHandler config request
  if resp.isSome then
    Run.ret (some { Code := .ERROR, Msg := config.UnsupportedChain,
                    payload := [] }, none)
  else
    d.invoke request.Chain .CreateUtxoTx request

def WalletDispatcher.VerifyAccountSignedTx (d : WalletDispatcher) (config : Consts)
    (request : Request) : Run Reply :=
  let resp := d.preHandler config request
  if resp.isSome then
    Run.ret (some { Code := .ERROR, Msg := config.UnsupportedChain,
                    payload := [] }, none)
  else
    d.invoke request.Chain .VerifyAccountSignedTx request

def WalletDispatcher.VerifyUtxoSignedTx (d : WalletDispatcher) (config : Consts)
    (request : Request) : Run Reply :=
  let resp := d.preHandler config request
  if resp.isSome then
    Run.ret (some { Code := .ERROR, Msg := config.UnsupportedChain,
                    payload := [] }, none)
  else
    d.invoke request.Chain .VerifyUtxoSignedTx request

def WalletDispatcher.ABIBinToJSON (d : WalletDispatcher) (config : Consts)
    (request : Request) : Run Reply :=
  let resp := d.preHandler config request
  if resp.isSome then
    Run.ret (some { Code := .ERROR, Msg := config.UnsupportedChain,
                    payload := [] }, none)
  else
    d.invoke request.Chain .ABIBinToJSON request

def WalletDispatcher.ABIJSONToBin (d : WalletDispatcher) (config : Consts)
    (request : Request) : Run Reply :=
  let resp := d.preHandler config request
  if resp.isSome then
    Run.ret (some { Code := .ERROR, Msg := config.UnsupportedChain,
                    payload := [] }, none)
  else
    d.invoke request.Chain .ABIJSONToBin request

/-- The dispatcher method named by `op`. -/
def WalletDispatcher.handle (d : WalletDispatcher) (config : Consts) (op : Op)
    (request : Request) : Run Reply :=
  match op with
  | .GetSupportCoins => d.GetSupportCoins config request
  | .GetNonce => d.GetNonce config request
  | .GetGasPrice => d.GetGasPrice config request
  | .SendTx => d.SendTx config request
  | .GetBalance => d.GetBalance config request
  | .GetTxByAddress => d.GetTxByAddress config request
  | .GetTxByHash => d.GetTxByHash config request
  | .GetAccount => d.GetAccount config request
  | .GetUtxo => d.GetUtxo config request
  | .GetMinRent => d.GetMinRent config request
  | .ConvertAddress => d.ConvertAddress config request
  | .ValidAddress => d.ValidAddress config request
  | .GetUtxoInsFromData => d.GetUtxoInsFromData config request
  | .GetAccountTxFromData => d.GetAccountTxFromData config request
  | .GetUtxoTxFromData => d.GetUtxoTxFromData config request
  | .GetAccountTxFromSignedData => d.GetAccountTxFromSignedData config request
  | .GetUtxoTxFromSignedData => d.GetUtxoTxFromSignedData config request
  | .CreateAccountSignedTx => d.CreateAccountSignedTx config request
  | .CreateAccountTx => d.CreateAccountTx config request
  | .CreateUtxoSignedTx => d.CreateUtxoSignedTx config request
  | .CreateUtxoTx => d.CreateUtxoTx config request
  | .VerifyAccountSignedTx => d.VerifyAccountSignedTx config request
  | .VerifyUtxoSignedTx => d.VerifyUtxoSignedTx config request
  | .ABIBinToJSON => d.ABIBinToJSON config request
  | .ABIJSONToBin => d.ABIJSONToBin config request

/-- The request as gRPC hands it to the interceptor, a value of type
interface: nil, a message that implements CommonRequest, or a value of some
other dynamic type. -/
inductive AnyRequest where
  | nil
  | common (r : Request)
  | foreign (typeName : String)
deriving DecidableEq, Repr

/-- The type assertion req.(CommonRequest): it yields the message, or raises the
run-time fault of a failed interface conversion. -/
def assertCommonRequest : AnyRequest → Outcome Request
  | .common r => .returned r
  | .nil => .panicked
      { description :=
          "interface conversion: interface is nil, not walletdispatcher.CommonRequest" }
  | .foreign t => .panicked
      { description := "interface conversion: " ++ t ++
          " is not walletdispatcher.CommonRequest: missing method GetChain" }

/-- The constructor status.Errorf(code, format, args) with the message already
formatted. -/
def status.Errorf (code : codes) (msg : String) : Error := .status code msg

/-- The call description gRPC passes to the interceptor (grpc.UnaryServerInfo),
as far as the interceptor reads it. -/
structure UnaryServerInfo where
  FullMethod : String
deriving DecidableEq, Repr

/-- The steps of Interceptor that come before the handler runs: reading
info.FullMethod through the pointer info (the method name sliced out of it, from
the position after the last slash, goes to the log only, and that slice is
always within bounds), then the type assertion on the request and the call of
GetChain. The result is the chain identifier. -/
def Interceptor.before (info : Option UnaryServerInfo) (req : AnyRequest) : Outcome String :=
  match info with
  | none => .panicked nilDereference
  | some _ =>
    match assertCommonRequest req with
    | .returned r => .returned r.GetChain
    | .panicked e => .panicked e
    | .exited code => .exited code

/-- The statements of Interceptor after the defer statement, run on the named
results (resp, err): the named results at the point where the body stops, and
how it stopped. The only assignment to the named results is the one that
receives the return values of the handler. -/
def Interceptor.body (req : AnyRequest) (info : Option UnaryServerInfo)
    (handler : AnyRequest → Outcome (Option Response × Option Error))
    (named : Option Response × Option Error) :
    (Option Response × Option Error) × Outcome Unit :=
  match Interceptor.before info req with
  | .panicked e => (named, .panicked e)
  | .exited code => (named, .exited code)
  | .returned _chain =>
    match handler req with
    | .returned (resp, err) => ((resp, err), .returned ())
    | .panicked e => (named, .panicked e)
    | .exited code => (named, .exited code)

/-- The interceptor: the body runs, then the deferred function. When recover()
yields a fault e, the deferred function overwrites the named result err and the
call returns normally with the named results as they stand; the named results
start as (nil, nil). -/
def WalletDispatcher.Interceptor (_d : WalletDispatcher) (req : AnyRequest)
    (info : Option UnaryServerInfo)
    (handler : AnyRequest → Outcome (Option Response × Option Error)) :
    Outcome (Option Response × Option Error) :=
  match Interceptor.body req info handler (none, none) with
  | (named, .returned ()) => .returned named
  | (named, .panicked e) =>
    .returned (named.1, some (status.Errorf .Internal ("Panic err: " ++ e.description)))
  | (_, .exited code) => .exited code

/-- The function log.Crit of go-ethereum (package log, imported by the
dispatcher): it writes the record at the critical level and then ends the
process with os.Exit(1); it never returns, so the statement that follows a call
of it is not reached. -/
def log.Crit : Outcome Unit := .exited 1

/-- A chain adaptor factory: given the configuration it returns an adaptor and
an error, or does not return. -/
abbrev Factory := Config → Outcome (Option WalletAdaptor × Option Error)

/-- The loop of New over conf.Chains, on the registry built so far. -/
def New.loop (walletAdaptorFactoryMap : List (String × Factory)) (conf : Config) :
    List String → Registry → Outcome Registry
  | [], registry => .returned registry
  | c :: rest, registry =>
    match walletAdaptorFactoryMap.lookup c with
    | some factory =>
      match factory conf with
      | .returned (adaptor, err) =>
        match (if err.isSome then log.Crit else .returned ()) with
        | .returned () => New.loop walletAdaptorFactoryMap conf rest (registry.set c adaptor)
        | .panicked e => .panicked e
        | .exited code => .exited code
      | .panicked e => .panicked e
      | .exited code => .exited code
    | none => New.loop walletAdaptorFactoryMap conf rest registry

/-- The constructor New. The factory map (fourteen chain names with the
constructors of their packages, all declared in other packages) is a
parameter. The error New returns is always nil. -/
def New (walletAdaptorFactoryMap : List (String × Factory)) (conf : Config) :
    Outcome (WalletDispatcher × Option Error) :=
  match New.loop walletAdaptorFactoryMap conf conf.Chains [] with
  | .returned registry => .returned ({ registry := registry }, none)
  | .panicked e => .panicked e
  | .exited code => .exited code

end walletdispatcher

namespace strings

/-- The test strings.HasPrefix(s, pre). -/
def HasPrefix (s pre : String) : Bool := pre.data.isPrefixOf s.data

/-- The function strings.TrimPrefix(s, pre): s without the leading pre, or s
itself when it does not start with pre. -/
def TrimPrefix (s pre : String) : String :=
  if HasPrefix s pre then String.mk (s.data.drop pre.data.length) else s

/-- Whether sub occurs in s at some position (characters as lists). -/
def containsAux (sub : List Char) : List Char → Bool
  | [] => sub.isPrefixOf []
  | c :: cs => sub.isPrefixOf (c :: cs) || containsAux sub cs

/-- The test strings.Contains(s, substr). -/
def Contains (s substr : String) : Bool := containsAux substr.data s.data

/-- Splitting around a non-empty separator: skip counts the characters of a
matched separator that are still to be passed over. -/
def splitAux (sep : List Char) : Nat → List Char → List (List Char)
  | _, [] => [[]]
  | skip + 1, _ :: cs => splitAux sep skip cs
  | 0, c :: cs =>
    if sep.isPrefixOf (c :: cs) then [] :: splitAux sep (sep.length - 1) cs
    else
      match splitAux sep 0 cs with
      | w :: ws => (c :: w) :: ws
      | [] => [[c]]

/-- The function strings.Split(s, sep): the substrings between the occurrences
of sep, taken from the left; with an empty sep, one string per character. -/
def Split (s sep : String) : List String :=
  if sep.data.isEmpty then s.data.map (fun c => String.mk [c])
  else (splitAux sep.data 0 s.data).map String.mk

/-- Replacing, from the left, up to n occurrences of a non-empty old; skip
counts the characters of a matched old that are still to be passed over. -/
def replaceAux (old new : List Char) : Nat → Nat → List Char → List Char
  | _, _, [] => []
  | skip + 1, n, _ :: cs => replaceAux old new skip n cs
  | 0, 0, c :: cs => c :: cs
  | 0, n + 1, c :: cs =>
    if old.isPrefixOf (c :: cs) then new ++ replaceAux old new (old.length - 1) n cs
    else c :: replaceAux old new 0 (n + 1) cs

/-- An empty old matches before each of the first n characters. -/
def insertAux (new : List Char) : Nat → List Char → List Char
  | _, [] => []
  | 0, cs => cs
  | n + 1, c :: cs => c :: (new ++ insertAux new n cs)

/-- The function strings.Replace(s, old, new, n): s with the first n
non-overlapping occurrences of old replaced by new, all of them when n is
negative; an empty old matches at the start of s and after each character. -/
def Replace (s old new : String) (n : Int) : String :=
  if old == new || n == 0 then s
  else
    let k := if n < 0 then s.data.length + 1 else n.toNat
    if old.data.isEmpty then String.mk (new.data ++ insertAux new.data (k - 1) s.data)
    else String.mk (replaceAux old.data new.data 0 k s.data)

end strings

namespace polygon

open Go config

/-- Freshness window of the cached head number. -/
def blockNumberCacheTime : Int := 10 -- seconds

/-- The three parameter sets of go-ethereum that the client selects from. -/
inductive params.ChainConfig where
  | MainnetChainConfig
  | RopstenChainConfig
  | AllCliqueProtocolChanges
deriving DecidableEq, Repr

/-- A pointer to an ethclient.Client: the endpoint it was dialed on, or none
for the zero value ethclient.Client that was never dialed. -/
structure Client where
  endpoint : Option String
deriving DecidableEq, Repr

/-- A block as far as the client reads it: its number (a big integer). -/
structure Block where
  Number : Int
deriving DecidableEq, Repr

/-- The client handle without its lock; the embedded interface Client may be
nil, cacheBlockNumber may be nil, cacheTime is an int64. -/
structure polygonClient where
  Client : Option Client
  chainConfig : params.ChainConfig
  cacheBlockNumber : Option Int
  cacheTime : Int
  confirmations : Nat
  local_ : Bool
deriving DecidableEq, Repr

/-- The world outside the process at one moment: what name resolution,
dialing and the two node queries answer. A Go pair (value, error) is kept as
a pair, a failure of resolution or dialing as the error text. -/
structure Network where
  ResolveIPAddr : String → Except String String
  Dial : String → Except String Client
  BlockByNumber : Client → Outcome (Option Block × Option String)
  CodeAt : Client → String → Outcome (List Nat × Option String)

/-- One call that leaves the process. -/
inductive NetCall where
  | ResolveIPAddr (host : String)
  | Dial (rawurl : String)
  | BlockByNumber
  | CodeAt (address : String)
deriving DecidableEq, Repr

/-- Result of constructing the clients: the calls made, the client slice (nil
is the empty list) and the error. -/
structure Built where
  calls : List NetCall
  clients : List polygonClient
  err : Option String
deriving DecidableEq, Repr

/-- The loop of newPolygonClients over the configured endpoints, on the calls
made and the clients appended so far. The index expression words[0] reads the
head of a list that Split never returns empty for the separator used. -/
def newPolygonClients.loop (net : Network) (chainConfig : params.ChainConfig)
    (confirmations : Nat) :
    List RPC → List NetCall → List polygonClient → List NetCall × List polygonClient
  | [], calls, clients => (calls, clients)
  | rpc :: rest, calls, clients =>
    let client : polygonClient :=
      { Client := none, chainConfig := chainConfig, cacheBlockNumber := none, cacheTime := 0,
        confirmations := confirmations, local_ := false }
    let rpcURL := rpc.RPCURL
    let domain := strings.TrimPrefix rpc.RPCURL "http://"
    let domain := strings.TrimPrefix domain "https://"
    if strings.Contains domain ":" then
      let words := strings.Split domain ":"
      match net.ResolveIPAddr (words.headD "") with
      | .error _ =>
        newPolygonClients.loop net chainConfig confirmations rest
          (calls ++ [.ResolveIPAddr (words.headD "")]) clients
      | .ok ipAddr =>
        let rpcURL := strings.Replace rpc.RPCURL (words.headD "") ipAddr 1
        match net.Dial rpcURL with
        | .error _ =>
          newPolygonClients.loop net chainConfig confirmations rest
            (calls ++ [.ResolveIPAddr (words.headD ""), .Dial rpcURL]) clients
        | .ok c =>
          newPolygonClients.loop net chainConfig confirmations rest
            (calls ++ [.ResolveIPAddr (words.headD ""), .Dial rpcURL])
            (clients ++ [{ client with Client := some c }])
    else
      match net.Dial rpcURL with
      | .error _ =>
        newPolygonClients.loop net chainConfig confirmations rest (calls ++ [.Dial rpcURL]) clients
      | .ok c =>
        newPolygonClients.loop net chainConfig confirmations rest (calls ++ [.Dial rpcURL])
          (clients ++ [{ client with Client := some c }])

/-- The chain parameters newPolygonClients picks for conf.NetWork. -/
def newPolygonClients.chainConfig (conf : Config) : params.ChainConfig :=
  if conf.NetWork == "mainnet" then .MainnetChainConfig
  else if conf.NetWork == "regtest" then .AllCliqueProtocolChanges
  else .RopstenChainConfig

def newPolygonClients (net : Network) (conf : Config) : Built :=
  let chainConfig := newPolygonClients.chainConfig conf
  let r := newPolygonClients.loop net chainConfig conf.Fullnode.Polygon.Confirmations
    conf.Fullnode.Polygon.RPCs [] []
  if r.2.length == 0 then { calls := r.1, clients := [], err := some "No clients available" }
  else { calls := r.1, clients := r.2, err := none }

def newLocalPolygonClient (network : NetWorkType) : Outcome polygonClient :=
  match network with
  | .MainNet => .returned
      { Client := some { endpoint := none }, chainConfig := .MainnetChainConfig,
        cacheBlockNumber := none, cacheTime := 0, confirmations := 0, local_ := true }
  | .TestNet => .returned
      { Client := some { endpoint := none }, chainConfig := .RopstenChainConfig,
        cacheBlockNumber := none, cacheTime := 0, confirmations := 0, local_ := true }
  | .RegTest => .returned
      { Client := some { endpoint := none }, chainConfig := .AllCliqueProtocolChanges,
        cacheBlockNumber := none, cacheTime := 0, confirmations := 0, local_ := true }
  | .other _ => .panicked { description := "unsupported network type" }

/-- An int64 result: the two's complement value of x in 64 bits. -/
def wrapInt64 (x : Int) : Int := (x + 2 ^ 63) % 2 ^ 64 - 2 ^ 63

/-- Result of a method of a client handle: the calls made, the handle after
the call and how the call ended. -/
structure Step (α : Type) where
  calls : List NetCall
  client : polygonClient
  out : Outcome α
deriving DecidableEq, Repr

/-- The method blockNumber run alone (no other goroutine between its two
critical sections), at clock reading now (the value of time.Now().Unix()).
The deferred Unlock leaves the fields as they are. -/
def polygonClient.blockNumber (client : polygonClient) (now : Int) (net : Network) :
    Step (Option Int) :=
  if wrapInt64 (now - client.cacheTime) < blockNumberCacheTime then
    let number := client.cacheBlockNumber
    { calls := [], client := client, out := .returned number }
  else if wrapInt64 (now - client.cacheTime) < blockNumberCacheTime then
    { calls := [], client := client, out := .returned client.cacheBlockNumber }
  else
    match client.Client with
    | none => { calls := [], client := client, out := .panicked nilDereference }
    | some c =>
      match net.BlockByNumber c with
      | .returned (latestBlock, err) =>
        if err.isSome then
          { calls := [.BlockByNumber], client := client, out := .returned none }
        else
          match latestBlock with
          | none => { calls := [.BlockByNumber], client := client,
                      out := .panicked nilDereference }
          | some latestBlock =>
            let client := { client with cacheBlockNumber := some latestBlock.Number }
            let client := { client with cacheTime := now }
            { calls := [.BlockByNumber], client := client,
              out := .returned client.cacheBlockNumber }
      | .panicked e => { calls := [.BlockByNumber], client := client, out := .panicked e }
      | .exited code => { calls := [.BlockByNumber], client := client, out := .exited code }

def polygonClient.isContractAddress (client : polygonClient) (net : Network)
    (address : String) : Step Bool :=
  match client.Client with
  | none => { calls := [], client := client, out := .panicked nilDereference }
  | some c =>
    match net.CodeAt c address with
    | .returned (code, err) =>
      { calls := [.CodeAt address], client := client,
        out := .returned (err.isNone && code.length > 0) }
    | .panicked e => { calls := [.CodeAt address], client := client, out := .panicked e }
    | .exited code => { calls := [.CodeAt address], client := client, out := .exited code }

end polygon

/-! ## Sample values -/

namespace sample

open Go config walletdispatcher

/-- Message texts: the first as the spec quotes it. -/
def consts : Consts :=
  { UnsupportedOperation := "unsupported operation", UnsupportedChain := "unsupported chain" }

/-- An adaptor that answers every operation with a fixed balance. -/
def adaptor : WalletAdaptor :=
  { method := fun _ _ =>
      .returned (some { Code := .SUCCESS, Msg := "", payload := [("Balance", .str "42")] }, none) }

/-- The dispatcher of the example in the spec: bitcoin and ethereum enabled. -/
def dispatcher : WalletDispatcher :=
  { registry := [("bitcoin", some adaptor), ("ethereum", some adaptor)] }

def solanaRequest : Request := { Chain := "solana", params := [("Address", .str "abc")] }

def ethereumRequest : Request := { Chain := "ethereum", params := [("Address", .str "0x01")] }

/-- The fault of an index out of range. -/
def indexFault : Fault :=
  { description := "runtime error: index out of range [3] with length 2" }

/-- A handler that faults with an index error. -/
def faultyHandler : AnyRequest → Outcome (Option Response × Option Error) :=
  fun _ => .panicked indexFault

def info : UnaryServerInfo := { FullMethod := "/savourrpc.wallet.WalletService/getBalance" }

/-- A factory that succeeds and one that reports an error. -/
def goodFactory : Factory := fun _ => .returned (some adaptor, none)

def badFactory : Factory := fun _ => .returned (none, some (.other "dial tcp: connection refused"))

def factoryMap : List (String × Factory) := [("bitcoin", goodFactory), ("polygon", badFactory)]

def conf : Config :=
  { Chains := ["bitcoin", "polygon"], NetWork := "mainnet",
    Fullnode := { Polygon := { RPCs := [], Confirmations := 12 } } }

end sample

namespace sample

open Go config polygon

/-- A network in which one host resolves and its node answers with head 100;
calls on a client that was never dialed fault, as a nil connection does. -/
def netUp : Network :=
  { ResolveIPAddr := fun host =>
      if host == "node.example.org" then .ok "10.0.0.7" else .error "no such host"
    Dial := fun rawurl =>
      if rawurl == "http://10.0.0.7:8545" || rawurl == "localhost" then
        .ok { endpoint := some rawurl }
      else .error "connection refused"
    BlockByNumber := fun c =>
      match c.endpoint with
      | none => .panicked nilDereference
      | some _ => .returned (some { Number := 100 }, none)
    CodeAt := fun c _ =>
      match c.endpoint with
      | none => .panicked nilDereference
      | some _ => .returned ([96, 128], none) }

/-- The same network while the node does not answer the head query. -/
def netDown : Network :=
  { netUp with
    BlockByNumber := fun c =>
      match c.endpoint with
      | none => .panicked nilDereference
      | some _ => .returned (none, some "connection refused") }

/-- A network in which nothing resolves and nothing can be dialed. -/
def netOff : Network :=
  { netUp with
    ResolveIPAddr := fun _ => .error "no such host"
    Dial := fun _ => .error "connection refused" }

/-- Three endpoints: one that resolves and dials, one that does not resolve,
one without a port that dials as it is. -/
def polygonConf : Config :=
  { Chains := ["polygon"], NetWork := "mainnet",
    Fullnode := { Polygon := { RPCs := [{ RPCURL := "http://node.example.org:8545" },
                                        { RPCURL := "http://down.example.org:8545" },
                                        { RPCURL := "localhost" }],
                               Confirmations := 12 } } }

/-- A dialed handle whose cache was filled with head 90 at time 1700000000. -/
def dialed : polygonClient :=
  { Client := some { endpoint := some "http://10.0.0.7:8545" }, chainConfig := .MainnetChainConfig,
    cacheBlockNumber := some 90, cacheTime := 1700000000, confirmations := 12, local_ := false }

/-- The handle newLocalPolygonClient builds for the main network. -/
def localHandle : polygonClient :=
  { Client := some { endpoint := none }, chainConfig := .MainnetChainConfig,
    cacheBlockNumber := none, cacheTime := 0, confirmations := 0, local_ := true }

/-- A network in which the single-label host t resolves to 10.0.0.7 and the
node listens on http://10.0.0.7:8545. -/
def netPin : Network :=
  { netUp with
    ResolveIPAddr := fun host => if host == "t" then .ok "10.0.0.7" else .error "no such host"
    Dial := fun rawurl =>
      if rawurl == "http://10.0.0.7:8545" then .ok { endpoint := some rawurl }
      else .error "unsupported protocol scheme" }

/-- One endpoint whose host name, t, also occurs inside the scheme. -/
def pinConf : Config :=
  { Chains := ["polygon"], NetWork := "mainnet",
    Fullnode := { Polygon := { RPCs := [{ RPCURL := "http://t:8545" }], Confirmations := 12 } } }

/-- A network in which node.example.org resolves to 10.0.0.7 and the node
listens on the websocket endpoint ws://10.0.0.7:8546. -/
def netWs : Network :=
  { netUp with
    Dial := fun rawurl =>
      if rawurl == "ws://10.0.0.7:8546" then .ok { endpoint := some rawurl }
      else .error "connection refused" }

/-- One websocket endpoint. -/
def wsConf : Config :=
  { Chains := ["polygon"], NetWork := "mainnet",
    Fullnode := { Polygon := { RPCs := [{ RPCURL := "ws://node.example.org:8546" }],
                               Confirmations := 12 } } }

end sample

/-! ## Notions used in the statements -/

namespace walletdispatcher

open Go config

/-- The message of the response a run returned, when it returned one. -/
def Run.msg (r : Run Reply) : Option String :=
  match r.out with
  | .returned (some resp, _) => some resp.Msg
  | _ => none

/-- The operations whose unsupported-chain response carries
config.UnsupportedOperation; the other fifteen carry config.UnsupportedChain. -/
def Op.answersUnsupportedOperation : Op → Bool
  | .GetSupportCoins | .GetNonce | .GetGasPrice | .SendTx | .GetBalance | .GetTxByAddress
  | .GetTxByHash | .GetAccount | .GetUtxo | .GetMinRent => true
  | _ => false

end walletdispatcher

namespace strings

/-- Whether old occurs in s at character position i. -/
def occursAt (s old : String) (i : Nat) : Bool := old.data.isPrefixOf (s.data.drop i)

/-- The characters before and after the first occurrence of sep, when sep
occurs. -/
def cutAux (sep : List Char) : List Char → Option (List Char × List Char)
  | [] => if sep.isEmpty then some ([], []) else none
  | c :: cs =>
    if sep.isPrefixOf (c :: cs) then some ([], (c :: cs).drop sep.length)
    else (cutAux sep cs).map (fun p => (c :: p.1, p.2))

/-- The text before and the text after the first occurrence of sep in s; none
when sep does not occur in s. -/
def Cut (s sep : String) : Option (String × String) :=
  (cutAux sep.data s.data).map (fun p => (String.mk p.1, String.mk p.2))

end strings

namespace polygon

open Go config

/-- What the code takes for the authority part: the URL without a leading
http:// and then without a leading https://. -/
def domainOf (rpc : RPC) : String :=
  strings.TrimPrefix (strings.TrimPrefix rpc.RPCURL "http://") "https://"

/-- The test the code makes before it resolves: the text domainOf gives
contains a colon. -/
def needsResolving (rpc : RPC) : Bool := strings.Contains (domainOf rpc) ":"

/-- The name the code hands to the resolver: what stands before the first colon
of the text domainOf gives. -/
def hostOf (rpc : RPC) : String := (strings.Split (domainOf rpc) ":").headD ""

/-- The connection the body of the loop obtains for one endpoint, computed as
the code computes it (the name hostOf gives is resolved, and the URL dialed is
the result of Replace with count 1 on the whole URL); none when the body ends
in continue. This is the code's own step, not the notion of the spec, which is
endpointUp below. -/
def loopStep (net : Network) (rpc : RPC) : Option Client :=
  if needsResolving rpc then
    match net.ResolveIPAddr (hostOf rpc) with
    | .error _ => none
    | .ok ipAddr =>
      match net.Dial (strings.Replace rpc.RPCURL (hostOf rpc) ipAddr 1) with
      | .error _ => none
      | .ok c => some c
  else
    match net.Dial rpc.RPCURL with
    | .error _ => none
    | .ok c => some c

/-- A URL whose authority holds an explicit host and port, cut in three: the
text up to the host (the scheme with its separator, empty when the URL names no
scheme), the host portion, and the text that follows the host (from the colon
of the port on). -/
structure HostPort where
  lead : String
  host : String
  trail : String
deriving DecidableEq, Repr

/-- In the words of the spec: whether the authority of a URL contains an
explicit host:port, and then its host portion. The authority is what stands
between the scheme separator :// (or the start of the URL, when it names no
scheme) and the next slash; it holds an explicit host:port when it contains a
colon, the host portion being what stands before that colon. User
information and bracketed addresses are not told apart. -/
def explicitHostPort (url : String) : Option HostPort :=
  let cut : String × String :=
    match strings.Cut url "://" with
    | some (scheme, rest) => (scheme ++ "://", rest)
    | none => ("", url)
  let authority : String :=
    match strings.Cut cut.2 "/" with
    | some (a, _) => a
    | none => cut.2
  match strings.Cut authority ":" with
  | some (host, _) =>
    some { lead := cut.1, host := host, trail := String.mk (cut.2.data.drop host.data.length) }
  | none => none

/-- In the words of the spec: the URL with the resolved address substituted
for its host portion. -/
def pinnedURL (p : HostPort) (ip : String) : String := p.lead ++ ip ++ p.trail

/-- In the words of the spec: the connection of an endpoint that both resolves
(when its authority contains an explicit host:port, the host portion is
resolved and the resolved address substituted into the URL) and dials
successfully (the resulting address is dialed); none for a failed endpoint. -/
def endpointUp (net : Network) (rpc : RPC) : Option Client :=
  match explicitHostPort rpc.RPCURL with
  | some p =>
    match net.ResolveIPAddr p.host with
    | .error _ => none
    | .ok ip =>
      match net.Dial (pinnedURL p ip) with
      | .error _ => none
      | .ok c => some c
  | none =>
    match net.Dial rpc.RPCURL with
    | .error _ => none
    | .ok c => some c

/-- In the words of the spec: the chain parameters selected from conf.NetWork,
main network, regression-test network, and the test network otherwise. -/
def selectedParams (network : String) : params.ChainConfig :=
  if network = "mainnet" then .MainnetChainConfig
  else if network = "regtest" then .AllCliqueProtocolChanges
  else .RopstenChainConfig

/-- The handle of a successful endpoint: its connection, the selected chain
parameters, the configured confirmation count and an empty cache. -/
def handleOf (conf : Config) (c : Client) : polygonClient :=
  { Client := some c, chainConfig := selectedParams conf.NetWork, cacheBlockNumber := none,
    cacheTime := 0, confirmations := conf.Fullnode.Polygon.Confirmations, local_ := false }

/-- A difference of two clock readings that int64 represents, so that the
subtraction the code performs does not overflow. -/
def fitsInt64 (x : Int) : Prop := -2 ^ 63 ≤ x ∧ x < 2 ^ 63

/-- Number of head fetches in a list of calls. -/
def headFetches (calls : List NetCall) : Nat := calls.count .BlockByNumber

/-- The calls of two consecutive runs of blockNumber on one handle, at clock
readings t1 and t2, against the network as it is at each of the two moments. -/
def twoCalls (client : polygonClient) (t1 : Int) (net1 : Network) (t2 : Int) (net2 : Network) :
    List NetCall :=
  let first := client.blockNumber t1 net1
  first.calls ++ (first.client.blockNumber t2 net2).calls

end polygon

/-! ## Dispatcher -/

namespace walletdispatcher

open Go config

/-- Every dispatcher method, on a chain that is not a key of the registry:
no adaptor call, nil error, an ERROR response with zero payload, and the
message constant of its group. -/
theorem handle_unregistered (config : Consts) (d : WalletDispatcher) (op : Op) (request : Request)
    (h : d.registry.lookup request.GetChain = none) :
    ∃ resp : Response,
      d.handle config op request = { calls := [], out := .returned (some resp, none) } ∧
      resp.Code = .ERROR ∧ (∀ f ∈ resp.payload, f.2.isZero = true) ∧
      resp.Msg = (if op.answersUnsupportedOperation then config.UnsupportedOperation
        else config.UnsupportedChain) := by
  cases op <;>
    simp [WalletDispatcher.handle, WalletDispatcher.GetSupportCoins, WalletDispatcher.GetNonce,
      WalletDispatcher.GetGasPrice, WalletDispatcher.SendTx, WalletDispatcher.GetBalance,
      WalletDispatcher.GetTxByAddress, WalletDispatcher.GetTxByHash, WalletDispatcher.GetAccount,
      WalletDispatcher.GetUtxo, WalletDispatcher.GetMinRent, WalletDispatcher.ConvertAddress,
      WalletDispatcher.ValidAddress, WalletDispatcher.GetUtxoInsFromData,
      WalletDispatcher.GetAccountTxFromData, WalletDispatcher.GetUtxoTxFromData,
      WalletDispatcher.GetAccountTxFromSignedData, WalletDispatcher.GetUtxoTxFromSignedData,
      WalletDispatcher.CreateAccountSignedTx, WalletDispatcher.CreateAccountTx,
      WalletDispatcher.CreateUtxoSignedTx, WalletDispatcher.CreateUtxoTx,
      WalletDispatcher.VerifyAccountSignedTx, WalletDispatcher.VerifyUtxoSignedTx,
      WalletDispatcher.ABIBinToJSON, WalletDispatcher.ABIJSONToBin,
      WalletDispatcher.preHandler, h, Run.ret, Value.isZero, Op.answersUnsupportedOperation]
  intro a b hab
  rcases hab with ⟨_, rfl⟩ | ⟨_, rfl⟩ <;> rfl

/-- C1. For every dispatcher, every one of the 25 operation methods and every
request whose chain identifier is not a key of the registry: the method makes
no adaptor call and returns a nil error together with a response whose Code is
ReturnCode_ERROR and whose payload fields all hold the zero value. -/
theorem unsupported_chain_short_circuit (config : Consts) (d : WalletDispatcher) (op : Op)
    (request : Request) (h : d.registry.lookup request.GetChain = none) :
    ∃ resp : Response,
      d.handle config op request = { calls := [], out := .returned (some resp, none) } ∧
      resp.Code = .ERROR ∧ ∀ f ∈ resp.payload, f.2.isZero = true := by
  obtain ⟨resp, h1, h2, h3, _⟩ := handle_unregistered config d op request h
  exact ⟨resp, h1, h2, h3⟩

/-- Witness of C1: the balance request for solana of the example in the spec. -/
theorem unsupported_chain_short_circuit_witness :
    sample.dispatcher.registry.lookup sample.solanaRequest.GetChain = none ∧
    ∃ resp : Response,
      sample.dispatcher.handle sample.consts .GetBalance sample.solanaRequest =
        { calls := [], out := .returned (some resp, none) } ∧
      resp.Code = .ERROR ∧ ∀ f ∈ resp.payload, f.2.isZero = true :=
  ⟨rfl, unsupported_chain_short_circuit sample.consts sample.dispatcher .GetBalance
    sample.solanaRequest rfl⟩

/-- C2. For every dispatcher, every operation method and every request whose
chain identifier is a key of the registry mapped to a non-nil adaptor a: the
method makes exactly one adaptor call, to the same-named method of the adaptor
stored under that key, with the request it received, and it ends exactly as
that call ends (the same response and error). -/
theorem registered_chain_forwarded (config : Consts) (d : WalletDispatcher) (op : Op)
    (request : Request) (a : WalletAdaptor)
    (h : d.registry.lookup request.GetChain = some (some a)) :
    d.handle config op request =
      { calls := [{ key := request.GetChain, op := op, request := request }],
        out := a.method op request } := by
  have hc : List.lookup request.Chain d.registry = some (some a) := h
  cases op <;>
    simp [WalletDispatcher.handle, WalletDispatcher.GetSupportCoins, WalletDispatcher.GetNonce,
      WalletDispatcher.GetGasPrice, WalletDispatcher.SendTx, WalletDispatcher.GetBalance,
      WalletDispatcher.GetTxByAddress, WalletDispatcher.GetTxByHash, WalletDispatcher.GetAccount,
      WalletDispatcher.GetUtxo, WalletDispatcher.GetMinRent, WalletDispatcher.ConvertAddress,
      WalletDispatcher.ValidAddress, WalletDispatcher.GetUtxoInsFromData,
      WalletDispatcher.GetAccountTxFromData, WalletDispatcher.GetUtxoTxFromData,
      WalletDispatcher.GetAccountTxFromSignedData, WalletDispatcher.GetUtxoTxFromSignedData,
      WalletDispatcher.CreateAccountSignedTx, WalletDispatcher.CreateAccountTx,
      WalletDispatcher.CreateUtxoSignedTx, WalletDispatcher.CreateUtxoTx,
      WalletDispatcher.VerifyAccountSignedTx, WalletDispatcher.VerifyUtxoSignedTx,
      WalletDispatcher.ABIBinToJSON, WalletDispatcher.ABIJSONToBin,
      WalletDispatcher.preHandler, WalletDispatcher.invoke, WalletDispatcher.index, h, hc,
      Request.GetChain]

/-- Witness of C2: a balance request for the enabled chain ethereum. -/
theorem registered_chain_forwarded_witness :
    sample.dispatcher.registry.lookup sample.ethereumRequest.GetChain =
        some (some sample.adaptor) ∧
    sample.dispatcher.handle sample.consts .GetBalance sample.ethereumRequest =
      { calls := [{ key := "ethereum", op := .GetBalance, request := sample.ethereumRequest }],
        out := sample.adaptor.method .GetBalance sample.ethereumRequest } :=
  ⟨rfl, registered_chain_forwarded sample.consts sample.dispatcher .GetBalance
    sample.ethereumRequest sample.adaptor rfl⟩

/-- C3. For every handler and every request passed to Interceptor: if a step
of Interceptor before the handler (reading info, the type assertion on the
request) or else the handler itself raises a run-time fault e, then Interceptor
does not propagate it: it returns normally with a nil response and the status
error of code Internal whose message is "Panic err: " followed by the
description of e. -/
theorem interceptor_recovers (d : WalletDispatcher) (req : AnyRequest)
    (info : Option UnaryServerInfo)
    (handler : AnyRequest → Outcome (Option Response × Option Error)) (e : Fault)
    (h : Interceptor.before info req = .panicked e ∨
      ((∃ chain, Interceptor.before info req = .returned chain) ∧ handler req = .panicked e)) :
    d.Interceptor req info handler =
      .returned (none, some (.status .Internal ("Panic err: " ++ e.description))) := by
  rcases h with h | ⟨⟨chain, hr⟩, hh⟩
  · simp [WalletDispatcher.Interceptor, Interceptor.body, h, status.Errorf]
  · simp [WalletDispatcher.Interceptor, Interceptor.body, hr, hh, status.Errorf]

/-- Witness of C3: a handler that faults on an index out of range. -/
theorem interceptor_recovers_witness :
    (Interceptor.before (some sample.info) (.common sample.ethereumRequest) =
        .panicked sample.indexFault ∨
      ((∃ chain, Interceptor.before (some sample.info) (.common sample.ethereumRequest) =
          .returned chain) ∧
        sample.faultyHandler (.common sample.ethereumRequest) = .panicked sample.indexFault)) ∧
    sample.dispatcher.Interceptor (.common sample.ethereumRequest) (some sample.info)
        sample.faultyHandler =
      .returned (none, some (.status .Internal
        "Panic err: runtime error: index out of range [3] with length 2")) :=
  ⟨Or.inr ⟨⟨_, rfl⟩, rfl⟩,
   interceptor_recovers sample.dispatcher (.common sample.ethereumRequest) (some sample.info)
    sample.faultyHandler sample.indexFault (Or.inr ⟨⟨_, rfl⟩, rfl⟩)⟩

/-- Once a chain with a failing factory is among the chains still to be
processed, the loop of New does not return. -/
theorem New.loop_aborts (fm : List (String × Factory)) (conf : Config) (c : String)
    (factory : Factory) (adaptor : Option WalletAdaptor) (err : Error)
    (hf : fm.lookup c = some factory) (hr : factory conf = .returned (adaptor, some err)) :
    ∀ (chains : List String) (registry : Registry), c ∈ chains →
      ∀ r, New.loop fm conf chains registry ≠ .returned r := by
  intro chains
  induction chains with
  | nil => intro _ hc; simp at hc
  | cons x rest ih =>
    intro registry hc r
    by_cases hx : x = c
    · subst hx
      simp [New.loop, hf, hr, log.Crit]
    · have hrest : c ∈ rest := by
        rcases List.mem_cons.mp hc with h | h
        · exact absurd h.symm hx
        · exact h
      unfold New.loop
      split
      · split
        · split
          · exact ih _ hrest r
          · simp
          · simp
        · simp
        · simp
      · exact ih _ hrest r

/-- C4. For every configuration: if some chain identifier c of conf.Chains has a
factory in the factory map and that factory returns a non-nil error, then New
does not return a dispatcher whose registry contains the key c; it does not
return at all, the process ends in log.Crit before the entry is installed. -/
theorem new_aborts_on_factory_error (fm : List (String × Factory)) (conf : Config) (c : String)
    (factory : Factory) (adaptor : Option WalletAdaptor) (err : Error)
    (hc : c ∈ conf.Chains) (hf : fm.lookup c = some factory)
    (hr : factory conf = .returned (adaptor, some err)) :
    (∀ d e, New fm conf = .returned (d, e) → d.registry.lookup c = none) ∧
    (∀ r, New fm conf ≠ .returned r) := by
  have hloop := New.loop_aborts fm conf c factory adaptor err hf hr conf.Chains [] hc
  have hnew : ∀ r, New fm conf ≠ .returned r := by
    intro r
    unfold New
    split
    · rename_i registry hreg
      exact absurd hreg (hloop registry)
    · simp
    · simp
  exact ⟨fun d e h => absurd h (hnew (d, e)), hnew⟩

/-- Witness of C4: the polygon factory fails after bitcoin was set up. -/
theorem new_aborts_on_factory_error_witness :
    ("polygon" ∈ sample.conf.Chains ∧ sample.factoryMap.lookup "polygon" = some sample.badFactory ∧
      sample.badFactory sample.conf =
        .returned (none, some (.other "dial tcp: connection refused"))) ∧
    ((∀ d e, New sample.factoryMap sample.conf = .returned (d, e) →
        d.registry.lookup "polygon" = none) ∧
      (∀ r, New sample.factoryMap sample.conf ≠ .returned r)) :=
  ⟨⟨by decide, rfl, rfl⟩,
   new_aborts_on_factory_error sample.factoryMap sample.conf "polygon" sample.badFactory none
    (.other "dial tcp: connection refused") (by decide) rfl rfl⟩

/-- C10, refuted as stated: with two different message texts, the responses of
GetBalance and ConvertAddress for an unregistered chain differ in Msg, so the
operations do not all answer with the same message. -/
theorem unsupported_message_not_uniform :
    ¬ ∀ (config : Consts) (d : WalletDispatcher) (op₁ op₂ : Op) (request : Request),
        d.registry.lookup request.GetChain = none →
        (d.handle config op₁ request).msg = (d.handle config op₂ request).msg := by
  intro h
  have h1 := h sample.consts sample.dispatcher .GetBalance .ConvertAddress sample.solanaRequest rfl
  revert h1
  decide

/-- C10, amended. For every dispatcher and every chain identifier not in the
registry, the ten operations GetSupportCoins, GetNonce, GetGasPrice, SendTx,
GetBalance, GetTxByAddress, GetTxByHash, GetAccount, GetUtxo and GetMinRent
answer with config.UnsupportedOperation and the other fifteen with
config.UnsupportedChain; two operations of the same group answer with equal
Msg. -/
theorem unsupported_message_by_group (config : Consts) (d : WalletDispatcher) (request : Request)
    (h : d.registry.lookup request.GetChain = none) :
    (∀ op : Op, (d.handle config op request).msg =
      some (if op.answersUnsupportedOperation then config.UnsupportedOperation
        else config.UnsupportedChain)) ∧
    (∀ op₁ op₂ : Op, op₁.answersUnsupportedOperation = op₂.answersUnsupportedOperation →
      (d.handle config op₁ request).msg = (d.handle config op₂ request).msg) := by
  have key : ∀ op : Op, (d.handle config op request).msg =
      some (if op.answersUnsupportedOperation then config.UnsupportedOperation
        else config.UnsupportedChain) := by
    intro op
    obtain ⟨resp, h1, _, _, h4⟩ := handle_unregistered config d op request h
    simp [h1, Run.msg, h4]
  refine ⟨key, ?_⟩
  intro op₁ op₂ hg
  rw [key op₁, key op₂, hg]

/-- Witness of C10 (amended): the solana request against bitcoin and ethereum. -/
theorem unsupported_message_by_group_witness :
    sample.dispatcher.registry.lookup sample.solanaRequest.GetChain = none ∧
    ((∀ op : Op, (sample.dispatcher.handle sample.consts op sample.solanaRequest).msg =
      some (if op.answersUnsupportedOperation then sample.consts.UnsupportedOperation
        else sample.consts.UnsupportedChain)) ∧
    (∀ op₁ op₂ : Op, op₁.answersUnsupportedOperation = op₂.answersUnsupportedOperation →
      (sample.dispatcher.handle sample.consts op₁ sample.solanaRequest).msg =
        (sample.dispatcher.handle sample.consts op₂ sample.solanaRequest).msg)) :=
  ⟨rfl, unsupported_message_by_group sample.consts sample.dispatcher sample.solanaRequest rfl⟩

end walletdispatcher

/-! ## Strings -/

namespace strings

theorem splitAux_ne_nil (sep : List Char) :
    ∀ (cs : List Char) (skip : Nat), splitAux sep skip cs ≠ [] := by
  intro cs
  induction cs with
  | nil => intro skip; cases skip <;> simp [splitAux]
  | cons c cs ih =>
    intro skip
    cases skip with
    | succ k => simpa [splitAux] using ih k
    | zero =>
      unfold splitAux
      split
      · simp
      · split <;> simp

/-- The index expression words[0] is in range: around a non-empty separator
Split returns at least one string. -/
theorem Split_ne_nil (s sep : String) (h : sep.data ≠ []) : Split s sep ≠ [] := by
  simp [Split, h, splitAux_ne_nil]

end strings

/-! ## Polygon client -/

namespace polygon

open Go config

theorem wrapInt64_of_fits (x : Int) (h : fitsInt64 x) : wrapInt64 x = x := by
  unfold fitsInt64 at h
  unfold wrapInt64
  norm_num at h ⊢
  omega

/-- A fresh cache answers without any call and without a change. -/
theorem blockNumber_fresh (client : polygonClient) (now : Int) (net : Network)
    (h : wrapInt64 (now - client.cacheTime) < blockNumberCacheTime) :
    client.blockNumber now net =
      { calls := [], client := client, out := .returned client.cacheBlockNumber } := by
  simp [polygonClient.blockNumber, h]

/-- A stale cache on a handle with a client makes exactly one head fetch. -/
theorem blockNumber_stale_calls (client : polygonClient) (now : Int) (net : Network) (c : Client)
    (hc : client.Client = some c)
    (h : ¬ wrapInt64 (now - client.cacheTime) < blockNumberCacheTime) :
    (client.blockNumber now net).calls = [.BlockByNumber] := by
  unfold polygonClient.blockNumber
  simp only [h, if_false, hc]
  split
  · split
    · rfl
    · split <;> rfl
  · rfl
  · rfl

/-- A stale cache and a failing fetch: one call, nil, no change. -/
theorem blockNumber_stale_failure (client : polygonClient) (now : Int) (net : Network)
    (c : Client) (block : Option Block) (err : String) (hc : client.Client = some c)
    (h : ¬ wrapInt64 (now - client.cacheTime) < blockNumberCacheTime)
    (hfail : net.BlockByNumber c = .returned (block, some err)) :
    client.blockNumber now net =
      { calls := [.BlockByNumber], client := client, out := .returned none } := by
  simp [polygonClient.blockNumber, h, hc, hfail]

/-- A stale cache and a successful fetch: one call, the new head, the cache
refreshed. -/
theorem blockNumber_stale_success (client : polygonClient) (now : Int) (net : Network)
    (c : Client) (block : Block) (hc : client.Client = some c)
    (h : ¬ wrapInt64 (now - client.cacheTime) < blockNumberCacheTime)
    (hok : net.BlockByNumber c = .returned (some block, none)) :
    client.blockNumber now net =
      { calls := [.BlockByNumber],
        client := { client with cacheBlockNumber := some block.Number, cacheTime := now },
        out := .returned (some block.Number) } := by
  simp [polygonClient.blockNumber, h, hc, hok]

/-- C5. Sequential model of blockNumber over the cache state (cacheBlockNumber,
cacheTime) with the clock reading now and the head fetch as inputs, the
difference now - cacheTime being the int64 difference the code computes: if
it is below 10 the call returns cacheBlockNumber, performs no fetch and leaves
the state unchanged; otherwise, when the fetch succeeds with head number n, the
call performs exactly one fetch, returns n and leaves the state (n, now). -/
theorem blockNumber_sequential (client : polygonClient) (now : Int) (net : Network) :
    (wrapInt64 (now - client.cacheTime) < 10 →
      client.blockNumber now net =
        { calls := [], client := client, out := .returned client.cacheBlockNumber }) ∧
    (¬ wrapInt64 (now - client.cacheTime) < 10 →
      ∀ (c : Client) (block : Block), client.Client = some c →
        net.BlockByNumber c = .returned (some block, none) →
        client.blockNumber now net =
          { calls := [.BlockByNumber],
            client := { client with cacheBlockNumber := some block.Number, cacheTime := now },
            out := .returned (some block.Number) }) :=
  ⟨fun h => blockNumber_fresh client now net h,
   fun h c block hc hok => blockNumber_stale_success client now net c block hc h hok⟩

/-- Witness of C5: a fresh read five seconds after the refresh, and a refresh
ten seconds after it. -/
theorem blockNumber_sequential_witness :
    (wrapInt64 (1700000005 - sample.dialed.cacheTime) < 10 ∧
      sample.dialed.blockNumber 1700000005 sample.netUp =
        { calls := [], client := sample.dialed, out := .returned (some 90) }) ∧
    (¬ wrapInt64 (1700000010 - sample.dialed.cacheTime) < 10 ∧
      sample.dialed.blockNumber 1700000010 sample.netUp =
        { calls := [.BlockByNumber],
          client := { sample.dialed with cacheBlockNumber := some 100, cacheTime := 1700000010 },
          out := .returned (some 100) }) :=
  ⟨⟨by decide, (blockNumber_sequential sample.dialed 1700000005 sample.netUp).1 (by decide)⟩,
   ⟨by decide, (blockNumber_sequential sample.dialed 1700000010 sample.netUp).2 (by decide)
      { endpoint := some "http://10.0.0.7:8545" } { Number := 100 } rfl rfl⟩⟩

/-- C6. For every cache state and every clock reading now with
now - cacheTime >= 10 (the int64 difference the code computes): if the head
fetch returns an error, blockNumber leaves cacheBlockNumber and cacheTime
unchanged and returns nil, not the stale cached number; consequently a
following call at the same or a later clock reading fetches again, the two
clock differences being int64 values. -/
theorem blockNumber_fetch_failure (client : polygonClient) (now : Int) (net : Network)
    (c : Client) (block : Option Block) (err : String)
    (hstale : 10 ≤ wrapInt64 (now - client.cacheTime))
    (hc : client.Client = some c)
    (hfail : net.BlockByNumber c = .returned (block, some err)) :
    client.blockNumber now net =
      { calls := [.BlockByNumber], client := client, out := .returned none } ∧
    ∀ (later : Int) (net2 : Network), now ≤ later →
      fitsInt64 (now - client.cacheTime) → fitsInt64 (later - client.cacheTime) →
      ((client.blockNumber now net).client.blockNumber later net2).calls = [.BlockByNumber] := by
  have hn : ¬ wrapInt64 (now - client.cacheTime) < blockNumberCacheTime := by
    unfold blockNumberCacheTime; omega
  have h1 := blockNumber_stale_failure client now net c block err hc hn hfail
  refine ⟨h1, ?_⟩
  intro later net2 hle hf1 hf2
  rw [h1]
  apply blockNumber_stale_calls client later net2 c hc
  rw [wrapInt64_of_fits _ hf2]
  rw [wrapInt64_of_fits _ hf1] at hstale
  unfold blockNumberCacheTime
  omega

/-- Witness of C6: the node is down ten seconds after the refresh and the next
call, three seconds later, fetches again. -/
theorem blockNumber_fetch_failure_witness :
    (10 ≤ wrapInt64 (1700000010 - sample.dialed.cacheTime) ∧
      sample.dialed.Client = some { endpoint := some "http://10.0.0.7:8545" } ∧
      sample.netDown.BlockByNumber { endpoint := some "http://10.0.0.7:8545" } =
        .returned (none, some "connection refused")) ∧
    sample.dialed.blockNumber 1700000010 sample.netDown =
      { calls := [.BlockByNumber], client := sample.dialed, out := .returned none } ∧
    ((sample.dialed.blockNumber 1700000010 sample.netDown).client.blockNumber 1700000013
      sample.netUp).calls = [.BlockByNumber] :=
  have h := blockNumber_fetch_failure sample.dialed 1700000010 sample.netDown
    { endpoint := some "http://10.0.0.7:8545" } none "connection refused" (by decide) rfl rfl
  ⟨⟨by decide, rfl, rfl⟩, h.1,
   h.2 1700000013 sample.netUp (by decide) (by unfold fitsInt64; decide)
    (by unfold fitsInt64; decide)⟩

/-- One run of blockNumber makes at most one head fetch. -/
theorem blockNumber_headFetches_le (client : polygonClient) (now : Int) (net : Network) :
    headFetches (client.blockNumber now net).calls ≤ 1 := by
  by_cases h : wrapInt64 (now - client.cacheTime) < blockNumberCacheTime
  · rw [blockNumber_fresh client now net h]
    simp [headFetches]
  · cases hc : client.Client with
    | none => simp [polygonClient.blockNumber, h, hc, headFetches]
    | some c =>
      rw [blockNumber_stale_calls client now net c hc h]
      simp [headFetches]

/-- C7, refuted as stated: a handle whose cache is stale, a node that fails
both head queries, and two calls three seconds apart make two head fetches. -/
theorem two_calls_two_fetches :
    ¬ ∀ (client : polygonClient) (t1 t2 : Int) (net1 net2 : Network),
        t1 ≤ t2 → t2 - t1 < 10 → headFetches (twoCalls client t1 net1 t2 net2) ≤ 1 := by
  intro h
  have h1 := h sample.dialed 1700000010 1700000013 sample.netDown sample.netDown
    (by decide) (by decide)
  revert h1
  decide

/-- C7, amended. For every initial cache state of a handle, every pair of clock
readings t1 <= t2 with t2 - t1 < 10 and every outcome of the head fetches in
which a fetch made by the first call succeeds: two consecutive calls of
blockNumber at t1 and t2 perform at most one head fetch in total. -/
theorem two_calls_one_fetch (client : polygonClient) (t1 t2 : Int) (net1 net2 : Network)
    (h12 : t1 ≤ t2) (hw : t2 - t1 < 10)
    (hok : ∀ c, client.Client = some c →
      ∃ block, net1.BlockByNumber c = .returned (some block, none)) :
    headFetches (twoCalls client t1 net1 t2 net2) ≤ 1 := by
  simp only [twoCalls]
  by_cases h : wrapInt64 (t1 - client.cacheTime) < blockNumberCacheTime
  · rw [blockNumber_fresh client t1 net1 h]
    simpa using blockNumber_headFetches_le client t2 net2
  · cases hc : client.Client with
    | none =>
      have e1 : client.blockNumber t1 net1 =
          { calls := [], client := client, out := .panicked nilDereference } := by
        simp [polygonClient.blockNumber, h, hc]
      rw [e1]
      simpa using blockNumber_headFetches_le client t2 net2
    | some c =>
      obtain ⟨block, hb⟩ := hok c hc
      rw [blockNumber_stale_success client t1 net1 c block hc h hb]
      have hfresh : wrapInt64 (t2 - t1) < blockNumberCacheTime := by
        rw [wrapInt64_of_fits _ (by unfold fitsInt64; constructor <;> omega)]
        unfold blockNumberCacheTime
        omega
      rw [blockNumber_fresh _ t2 net2 (by simpa using hfresh)]
      simp [headFetches]

/-- Witness of C7 (amended): the first call refreshes the cache, the second
one, three seconds later, is served from it. -/
theorem two_calls_one_fetch_witness :
    ((1700000010 : Int) ≤ 1700000013 ∧ (1700000013 : Int) - 1700000010 < 10 ∧
      ∀ c, sample.dialed.Client = some c →
        ∃ block, sample.netUp.BlockByNumber c = .returned (some block, none)) ∧
    headFetches (twoCalls sample.dialed 1700000010 sample.netUp 1700000013 sample.netDown) ≤ 1 :=
  have hok : ∀ c, sample.dialed.Client = some c →
      ∃ block, sample.netUp.BlockByNumber c = .returned (some block, none) := by
    intro c hc
    have : c = { endpoint := some "http://10.0.0.7:8545" } := by
      simpa [sample.dialed] using hc.symm
    subst this
    exact ⟨{ Number := 100 }, rfl⟩
  ⟨⟨by decide, by decide, hok⟩,
   two_calls_one_fetch sample.dialed 1700000010 1700000013 sample.netUp sample.netDown
    (by decide) (by decide) hok⟩

/-- The handle the loop appends for a connection. -/
theorem newPolygonClients.loop_clients (net : Network) (cc : params.ChainConfig) (n : Nat) :
    ∀ (rpcs : List RPC) (calls : List NetCall) (clients : List polygonClient),
      (newPolygonClients.loop net cc n rpcs calls clients).2 =
      clients ++ (rpcs.filterMap (loopStep net)).map (fun c =>
        { Client := some c, chainConfig := cc, cacheBlockNumber := none, cacheTime := 0,
          confirmations := n, local_ := false }) := by
  intro rpcs
  induction rpcs with
  | nil => intro calls clients; simp [newPolygonClients.loop]
  | cons rpc rest ih =>
    intro calls clients
    unfold newPolygonClients.loop
    simp only [List.filterMap_cons, loopStep, needsResolving, hostOf, domainOf]
    generalize strings.Contains
      (strings.TrimPrefix (strings.TrimPrefix rpc.RPCURL "http://") "https://") ":" = b
    generalize (strings.Split
      (strings.TrimPrefix (strings.TrimPrefix rpc.RPCURL "http://") "https://") ":").headD "" = host
    cases b
    · simp only [Bool.false_eq_true, if_false]
      cases net.Dial rpc.RPCURL with
      | error e => simp only [ih]
      | ok c => simp only [ih, List.map_cons, List.append_assoc, List.singleton_append]
    · simp only [if_true]
      cases net.ResolveIPAddr host with
      | error e => simp only [ih]
      | ok ipAddr =>
        simp only []
        cases net.Dial (strings.Replace rpc.RPCURL host ipAddr 1) with
        | error e => simp only [ih]
        | ok c => simp only [ih, List.map_cons, List.append_assoc, List.singleton_append]

theorem newPolygonClients.chainConfig_eq (conf : Config) :
    newPolygonClients.chainConfig conf = selectedParams conf.NetWork := by
  simp [newPolygonClients.chainConfig, selectedParams]

/-- The result of newPolygonClients in terms of the connections its loop body
obtains: the error "No clients available", and no clients, exactly when the
body obtains none; otherwise a nil error and one handle per connection, in
configuration order, with the configured confirmation count and the chain
parameters selected from conf.NetWork. -/
theorem newPolygonClients_by_loopStep (net : Network) (conf : Config) :
    (((newPolygonClients net conf).err = some "No clients available" ∧
        (newPolygonClients net conf).clients = []) ↔
      ∀ rpc ∈ conf.Fullnode.Polygon.RPCs, loopStep net rpc = none) ∧
    ((∃ rpc ∈ conf.Fullnode.Polygon.RPCs, (loopStep net rpc).isSome) →
      (newPolygonClients net conf).err = none ∧
      (newPolygonClients net conf).clients =
        (conf.Fullnode.Polygon.RPCs.filterMap (loopStep net)).map (handleOf conf)) := by
  have hloop : (newPolygonClients.loop net (newPolygonClients.chainConfig conf)
      conf.Fullnode.Polygon.Confirmations conf.Fullnode.Polygon.RPCs [] []).2 =
      (conf.Fullnode.Polygon.RPCs.filterMap (loopStep net)).map (handleOf conf) := by
    rw [newPolygonClients.loop_clients, newPolygonClients.chainConfig_eq]
    rfl
  have hnil : (conf.Fullnode.Polygon.RPCs.filterMap (loopStep net)) = [] ↔
      ∀ rpc ∈ conf.Fullnode.Polygon.RPCs, loopStep net rpc = none := by
    simp [List.filterMap_eq_nil_iff]
  by_cases hall : ∀ rpc ∈ conf.Fullnode.Polygon.RPCs, loopStep net rpc = none
  · have hempty := hnil.mpr hall
    have hres : newPolygonClients net conf =
        { calls := (newPolygonClients.loop net (newPolygonClients.chainConfig conf)
            conf.Fullnode.Polygon.Confirmations conf.Fullnode.Polygon.RPCs [] []).1,
          clients := [], err := some "No clients available" } := by
      simp [newPolygonClients, hloop, hempty]
    refine ⟨⟨fun _ => hall, fun _ => by rw [hres]; exact ⟨rfl, rfl⟩⟩, ?_⟩
    rintro ⟨rpc, hmem, hsome⟩
    rw [hall rpc hmem] at hsome
    simp at hsome
  · have hne : (conf.Fullnode.Polygon.RPCs.filterMap (loopStep net)) ≠ [] :=
      fun h => hall (hnil.mp h)
    have hres : newPolygonClients net conf =
        { calls := (newPolygonClients.loop net (newPolygonClients.chainConfig conf)
            conf.Fullnode.Polygon.Confirmations conf.Fullnode.Polygon.RPCs [] []).1,
          clients := (conf.Fullnode.Polygon.RPCs.filterMap (loopStep net)).map (handleOf conf),
          err := none } := by
      simp [newPolygonClients, hloop, hne]
    refine ⟨⟨fun h => ?_, fun h => absurd h hall⟩, fun _ => by rw [hres]; exact ⟨rfl, rfl⟩⟩
    rw [hres] at h
    simp at h

/-- Where the loop body obtains for every configured endpoint what the spec has
it obtain (the host portion resolved, the address substituted for it, the
result dialed), newPolygonClients returns the error "No clients available", and
no clients, if and only if no endpoint both resolves and dials; otherwise it
returns a nil error and exactly one handle per successful endpoint, in
configuration order. -/
theorem newPolygonClients_result_of_agreement (net : Network) (conf : Config)
    (hagree : ∀ rpc ∈ conf.Fullnode.Polygon.RPCs, loopStep net rpc = endpointUp net rpc) :
    (((newPolygonClients net conf).err = some "No clients available" ∧
        (newPolygonClients net conf).clients = []) ↔
      ∀ rpc ∈ conf.Fullnode.Polygon.RPCs, endpointUp net rpc = none) ∧
    ((∃ rpc ∈ conf.Fullnode.Polygon.RPCs, (endpointUp net rpc).isSome) →
      (newPolygonClients net conf).err = none ∧
      (newPolygonClients net conf).clients =
        (conf.Fullnode.Polygon.RPCs.filterMap (endpointUp net)).map (handleOf conf)) := by
  have h := newPolygonClients_by_loopStep net conf
  have hmap : conf.Fullnode.Polygon.RPCs.filterMap (loopStep net) =
      conf.Fullnode.Polygon.RPCs.filterMap (endpointUp net) := by
    generalize conf.Fullnode.Polygon.RPCs = rpcs at hagree
    induction rpcs with
    | nil => rfl
    | cons rpc rest ih =>
      have h1 := hagree rpc (List.mem_cons_self _ _)
      have h2 := ih (fun r hr => hagree r (List.mem_cons_of_mem _ hr))
      simp only [List.filterMap_cons, h1, h2]
  refine ⟨⟨fun hl rpc hm => ?_, fun hr => ?_⟩, fun hex => ?_⟩
  · rw [← hagree rpc hm]
    exact h.1.mp hl rpc hm
  · exact h.1.mpr (fun rpc hm => by rw [hagree rpc hm]; exact hr rpc hm)
  · obtain ⟨rpc, hm, hs⟩ := hex
    have := h.2 ⟨rpc, hm, by rw [hagree rpc hm]; exact hs⟩
    rw [hmap] at this
    exact this

/-- The sample configuration, where the loop body and the spec agree: of three
endpoints the first and the third come up; with the network off the
construction fails. -/
theorem newPolygonClients_result_sample :
    (∀ rpc ∈ sample.polygonConf.Fullnode.Polygon.RPCs,
      loopStep sample.netUp rpc = endpointUp sample.netUp rpc) ∧
    ((∃ rpc ∈ sample.polygonConf.Fullnode.Polygon.RPCs, (endpointUp sample.netUp rpc).isSome) ∧
      (newPolygonClients sample.netUp sample.polygonConf).err = none ∧
      (newPolygonClients sample.netUp sample.polygonConf).clients =
        [handleOf sample.polygonConf { endpoint := some "http://10.0.0.7:8545" },
         handleOf sample.polygonConf { endpoint := some "localhost" }]) ∧
    ((∀ rpc ∈ sample.polygonConf.Fullnode.Polygon.RPCs, endpointUp sample.netOff rpc = none) ∧
      (newPolygonClients sample.netOff sample.polygonConf).err = some "No clients available" ∧
      (newPolygonClients sample.netOff sample.polygonConf).clients = []) :=
  have hagree : ∀ rpc ∈ sample.polygonConf.Fullnode.Polygon.RPCs,
      loopStep sample.netUp rpc = endpointUp sample.netUp rpc := by decide
  have hagree2 : ∀ rpc ∈ sample.polygonConf.Fullnode.Polygon.RPCs,
      loopStep sample.netOff rpc = endpointUp sample.netOff rpc := by decide
  have hup : ∃ rpc ∈ sample.polygonConf.Fullnode.Polygon.RPCs,
      (endpointUp sample.netUp rpc).isSome := ⟨{ RPCURL := "localhost" }, by decide, by decide⟩
  have hoff : ∀ rpc ∈ sample.polygonConf.Fullnode.Polygon.RPCs,
      endpointUp sample.netOff rpc = none := by decide
  have h1 := (newPolygonClients_result_of_agreement sample.netUp sample.polygonConf hagree).2 hup
  have h2 :=
    (newPolygonClients_result_of_agreement sample.netOff sample.polygonConf hagree2).1.mpr hoff
  ⟨hagree, ⟨hup, h1.1, h1.2.trans (by decide)⟩, ⟨hoff, h2.1, h2.2⟩⟩

/-- C8, evaluated where the code departs from it. The only configured endpoint
is http://t:8545; its host t resolves to 10.0.0.7 and the URL with the address
in place of the host, http://10.0.0.7:8545, dials successfully, so the endpoint
both resolves and dials and the claim has newPolygonClients return one handle
and a nil error. The code dials h10.0.0.7tp://t:8545 instead (Replace
substitutes the first occurrence of the host text in the whole URL), the dial
fails, and it returns "No clients available" and no clients. -/
theorem reachable_endpoint_dropped :
    sample.pinConf.Fullnode.Polygon.RPCs = [{ RPCURL := "http://t:8545" }] ∧
    explicitHostPort "http://t:8545" = some { lead := "http://", host := "t", trail := ":8545" } ∧
    (sample.netPin.ResolveIPAddr "t").toOption = some "10.0.0.7" ∧
    (sample.netPin.Dial "http://10.0.0.7:8545").toOption =
      some { endpoint := some "http://10.0.0.7:8545" } ∧
    endpointUp sample.netPin { RPCURL := "http://t:8545" } =
      some { endpoint := some "http://10.0.0.7:8545" } ∧
    (newPolygonClients sample.netPin sample.pinConf).err = some "No clients available" ∧
    (newPolygonClients sample.netPin sample.pinConf).clients = [] := by
  decide

/-- A websocket endpoint: the code strips only http:// and https://, takes ws
for the host name and resolves it; the node, which resolves and can be dialed
at ws://10.0.0.7:8546, is dropped. -/
theorem ws_endpoint_dropped :
    endpointUp sample.netWs { RPCURL := "ws://node.example.org:8546" } =
      some { endpoint := some "ws://10.0.0.7:8546" } ∧
    (newPolygonClients sample.netWs sample.wsConf).calls = [.ResolveIPAddr "ws"] ∧
    (newPolygonClients sample.netWs sample.wsConf).err = some "No clients available" := by
  decide

/-- C9, refuted as stated: on the handle newLocalPolygonClient returns for the
main network, blockNumber calls BlockByNumber and isContractAddress calls
CodeAt. -/
theorem local_handle_reaches_network :
    ¬ ∀ (network : NetWorkType) (h : polygonClient) (number : Option Int) (time now : Int)
        (net : Network) (address : String),
        newLocalPolygonClient network = .returned h →
        ({ h with cacheBlockNumber := number, cacheTime := time }.blockNumber now net).calls = [] ∧
        ({ h with cacheBlockNumber := number, cacheTime := time }.isContractAddress net
          address).calls = [] := by
  intro h
  have h1 := h .MainNet sample.localHandle none 0 1700000000 sample.netUp "0x01" rfl
  revert h1
  decide

/-- C9, amended. For every handle returned by newLocalPolygonClient (local is
true, the client was never dialed), every cache state and every clock reading:
isContractAddress calls CodeAt exactly once, and blockNumber calls
BlockByNumber exactly once unless the cache is fresh (now - cacheTime < 10 as
the code computes it), in which case it makes no call; the flag local is not
consulted. -/
theorem local_handle_calls (network : NetWorkType) (h : polygonClient)
    (hnew : newLocalPolygonClient network = .returned h)
    (number : Option Int) (time now : Int) (net : Network) (address : String) :
    h.local_ = true ∧ h.Client = some { endpoint := none } ∧
    ({ h with cacheBlockNumber := number, cacheTime := time }.isContractAddress net
      address).calls = [.CodeAt address] ∧
    ({ h with cacheBlockNumber := number, cacheTime := time }.blockNumber now net).calls =
      (if wrapInt64 (now - time) < 10 then [] else [.BlockByNumber]) := by
  have hh : h.local_ = true ∧ h.Client = some { endpoint := none } := by
    cases network <;> simp [newLocalPolygonClient] at hnew <;> subst hnew <;> exact ⟨rfl, rfl⟩
  refine ⟨hh.1, hh.2, ?_, ?_⟩
  · simp only [polygonClient.isContractAddress, hh.2]
    split <;> rfl
  · by_cases hf : wrapInt64 (now - time) < 10
    · rw [blockNumber_fresh _ now net (by simpa [blockNumberCacheTime] using hf)]
      simp [hf]
    · rw [blockNumber_stale_calls _ now net { endpoint := none } (by simpa using hh.2)
        (by simpa [blockNumberCacheTime] using hf)]
      simp [hf]

/-- Witness of C9 (amended): the local handle of the main network. -/
theorem local_handle_calls_witness :
    newLocalPolygonClient .MainNet = .returned sample.localHandle ∧
    (sample.localHandle.local_ = true ∧ sample.localHandle.Client = some { endpoint := none } ∧
    ({ sample.localHandle with cacheBlockNumber := none, cacheTime := 0 }.isContractAddress
      sample.netUp "0x01").calls = [.CodeAt "0x01"] ∧
    ({ sample.localHandle with cacheBlockNumber := none, cacheTime := 0 }.blockNumber 1700000000
      sample.netUp).calls = (if wrapInt64 (1700000000 - 0) < 10 then [] else [.BlockByNumber])) :=
  ⟨rfl, local_handle_calls .MainNet sample.localHandle rfl none 0 1700000000 sample.netUp "0x01"⟩

/-- C11, evaluated where the code departs from it. The endpoint http://t:8545
has the form scheme, host, colon, port with host t, and t resolves to 10.0.0.7:
the claim has http://10.0.0.7:8545 dialed, the code dials h10.0.0.7tp://t:8545,
because Replace substitutes the first occurrence of the host text in the whole
URL and that one lies inside the scheme. The dial fails and no client is
built, although the node at 10.0.0.7:8545 can be dialed. -/
theorem dial_target_rewrites_scheme :
    (newPolygonClients sample.netPin sample.pinConf).calls =
      [.ResolveIPAddr "t", .Dial "h10.0.0.7tp://t:8545"] ∧
    (newPolygonClients sample.netPin sample.pinConf).calls ≠
      [.ResolveIPAddr "t", .Dial ("http://" ++ "10.0.0.7" ++ ":" ++ "8545")] ∧
    (newPolygonClients sample.netPin sample.pinConf).err = some "No clients available" ∧
    (sample.netPin.Dial ("http://" ++ "10.0.0.7" ++ ":" ++ "8545")).toOption =
      some { endpoint := some "http://10.0.0.7:8545" } := by
  decide

end polygon

/-! ## Where the dialed URL is the pinned one -/

namespace strings

theorem TrimPrefix_append (p r : String) : TrimPrefix (p ++ r) p = r := by
  have h : p.data.isPrefixOf (p.data ++ r.data) = true := by simp
  simp [TrimPrefix, HasPrefix, h]

theorem TrimPrefix_of_not (s p : String) (h : HasPrefix s p = false) : TrimPrefix s p = s := by
  simp [TrimPrefix, h]

theorem containsAux_sep (c : Char) (h p : List Char) : containsAux [c] (h ++ c :: p) = true := by
  induction h with
  | nil => simp [containsAux, List.isPrefixOf]
  | cons x h ih => simp [containsAux, ih]

theorem splitAux_head (c : Char) (h p : List Char) (hc : c ∉ h) :
    splitAux [c] 0 (h ++ c :: p) = h :: splitAux [c] 0 p := by
  induction h with
  | nil => simp [splitAux, List.isPrefixOf]
  | cons x h ih =>
    have hx : ¬ c = x := fun e => hc (e ▸ List.mem_cons_self _ _)
    have ih2 := ih (fun hm => hc (List.mem_cons_of_mem _ hm))
    simp [splitAux, List.isPrefixOf, hx, ih2]

theorem replaceAux_skip (old new : List Char) :
    ∀ (o suf : List Char), replaceAux old new o.length 0 (o ++ suf) = suf := by
  intro o
  induction o with
  | nil => intro suf; cases suf <;> simp [replaceAux]
  | cons x o ih => intro suf; simpa [replaceAux] using ih suf

theorem replaceAux_first (old new : List Char) (hne : old ≠ []) :
    ∀ (pre suf : List Char),
      (∀ i, i < pre.length → old.isPrefixOf ((pre ++ old ++ suf).drop i) = false) →
      replaceAux old new 0 1 (pre ++ old ++ suf) = pre ++ new ++ suf := by
  intro pre
  induction pre with
  | nil =>
    intro suf _
    cases old with
    | nil => exact absurd rfl hne
    | cons c o =>
      have hp : (c :: o).isPrefixOf (c :: (o ++ suf)) = true := by simp
      show replaceAux (c :: o) new 0 1 (c :: (o ++ suf)) = new ++ suf
      rw [replaceAux, if_pos hp]
      simp only [List.length_cons, Nat.add_sub_cancel]
      rw [replaceAux_skip]
  | cons x pre ih =>
    intro suf hocc
    have h0 := hocc 0 (by simp)
    have hrest : ∀ i, i < pre.length → old.isPrefixOf ((pre ++ old ++ suf).drop i) = false := by
      intro i hi
      have := hocc (i + 1) (by simpa using hi)
      simpa using this
    have h0b : ¬ old.isPrefixOf (x :: (pre ++ old ++ suf)) = true := by
      have : old.isPrefixOf (x :: (pre ++ old ++ suf)) = false := h0
      rw [this]
      simp
    show replaceAux old new 0 1 (x :: (pre ++ old ++ suf)) = x :: (pre ++ new ++ suf)
    rw [replaceAux, if_neg h0b, ih suf hrest]

/-- Replace with count 1 substitutes the occurrence of old that follows pre
when old occurs at no earlier position. -/
theorem Replace_first (pre old new suf : String) (hne : old ≠ "")
    (hocc : ∀ i, i < pre.length → occursAt (pre ++ old ++ suf) old i = false) :
    Replace (pre ++ old ++ suf) old new 1 = pre ++ new ++ suf := by
  by_cases h : old = new
  · subst h; simp [Replace]
  · have hd : old.data ≠ [] := fun e => hne (String.ext e)
    have hk : replaceAux old.data new.data 0 1 (pre.data ++ old.data ++ suf.data) =
        pre.data ++ new.data ++ suf.data :=
      replaceAux_first old.data new.data hd pre.data suf.data
        (fun i hi => by simpa [occursAt] using hocc i hi)
    simp only [List.append_assoc] at hk
    apply String.ext
    simp [Replace, h, hd, hk]

end strings

namespace polygon

open Go config

/-- An endpoint whose URL, without its scheme, holds no colon is dialed as it
is, and no resolution is performed: these are the only calls it adds. -/
theorem loop_dials_unmodified (net : Network) (cc : params.ChainConfig) (n : Nat) (rpc : RPC)
    (rest : List RPC) (calls : List NetCall) (clients : List polygonClient)
    (h : strings.Contains (domainOf rpc) ":" = false) :
    ∃ clients2, newPolygonClients.loop net cc n (rpc :: rest) calls clients =
      newPolygonClients.loop net cc n rest (calls ++ [.Dial rpc.RPCURL]) clients2 := by
  unfold domainOf at h
  rw [newPolygonClients.loop]
  simp only [h, Bool.false_eq_true, if_false]
  cases net.Dial rpc.RPCURL with
  | error e => exact ⟨_, rfl⟩
  | ok c => exact ⟨_, rfl⟩

/-- An endpoint scheme, host, colon, port whose host resolves to ip is dialed
at scheme, ip, colon, port, after one resolution of host, provided that the
host text occurs at no position inside the scheme and that host, colon, port
does not itself start with https://. -/
theorem loop_dials_pinned (net : Network) (cc : params.ChainConfig) (n : Nat)
    (scheme host port ip : String) (rest : List RPC) (calls : List NetCall)
    (clients : List polygonClient)
    (hs : scheme = "http://" ∨ scheme = "https://")
    (hcolon : ':' ∉ host.data)
    (hocc : ∀ i, i < scheme.length →
      strings.occursAt (scheme ++ host ++ (":" ++ port)) host i = false)
    (hhttps : strings.HasPrefix (host ++ (":" ++ port)) "https://" = false)
    (hres : net.ResolveIPAddr host = .ok ip) :
    ∃ clients2,
      newPolygonClients.loop net cc n ({ RPCURL := scheme ++ host ++ (":" ++ port) } :: rest)
        calls clients =
      newPolygonClients.loop net cc n rest
        (calls ++ [.ResolveIPAddr host, .Dial (scheme ++ ip ++ (":" ++ port))]) clients2 := by
  have hne : host ≠ "" := by
    intro e
    have h0 := hocc 0 (by rcases hs with rfl | rfl <;> decide)
    subst e
    simp [strings.occursAt] at h0
  have hdom : strings.TrimPrefix (strings.TrimPrefix (scheme ++ host ++ (":" ++ port)) "http://")
      "https://" = host ++ (":" ++ port) := by
    rcases hs with rfl | rfl
    · rw [String.append_assoc, strings.TrimPrefix_append, strings.TrimPrefix_of_not _ _ hhttps]
    · have h1 : strings.HasPrefix ("https://" ++ host ++ (":" ++ port)) "http://" = false := by
        simp [strings.HasPrefix, List.isPrefixOf]
      rw [strings.TrimPrefix_of_not _ _ h1, String.append_assoc, strings.TrimPrefix_append]
  have hcont : strings.Contains (host ++ (":" ++ port)) ":" = true := by
    simpa [strings.Contains] using strings.containsAux_sep ':' host.data port.data
  have hhead : (strings.Split (host ++ (":" ++ port)) ":").headD "" = host := by
    have := strings.splitAux_head ':' host.data port.data hcolon
    simp [strings.Split, this]
  have hrep : strings.Replace (scheme ++ host ++ (":" ++ port)) host ip 1 =
      scheme ++ ip ++ (":" ++ port) :=
    strings.Replace_first scheme host ip (":" ++ port) hne hocc
  rw [newPolygonClients.loop]
  simp only [hdom, hcont, if_true, hhead, hres, hrep]
  cases net.Dial (scheme ++ ip ++ (":" ++ port)) with
  | error e => exact ⟨_, rfl⟩
  | ok c => exact ⟨_, rfl⟩

/-- The pinned dial at a sample endpoint: node.example.org resolves to 10.0.0.7
and http://10.0.0.7:8545 is what the dialer receives. -/
theorem loop_dials_pinned_sample :
    ∃ clients2,
      newPolygonClients.loop sample.netUp .MainnetChainConfig 12
        [{ RPCURL := "http://" ++ "node.example.org" ++ (":" ++ "8545") }] [] [] =
      newPolygonClients.loop sample.netUp .MainnetChainConfig 12 []
        ([] ++ [.ResolveIPAddr "node.example.org",
                .Dial ("http://" ++ "10.0.0.7" ++ (":" ++ "8545"))]) clients2 :=
  loop_dials_pinned sample.netUp .MainnetChainConfig 12 "http://" "node.example.org" "8545"
    "10.0.0.7" [] [] [] (Or.inl rfl) (by decide) (by decide) (by decide) rfl

/-- An endpoint without a colon after its scheme, localhost, is dialed as it
is, without resolution. -/
theorem loop_dials_unmodified_sample :
    ∃ clients2,
      newPolygonClients.loop sample.netUp .MainnetChainConfig 12 [{ RPCURL := "localhost" }] [] [] =
      newPolygonClients.loop sample.netUp .MainnetChainConfig 12 []
        ([] ++ [.Dial "localhost"]) clients2 :=
  loop_dials_unmodified sample.netUp .MainnetChainConfig 12 { RPCURL := "localhost" } [] [] []
    (by decide)

end polygon
